import Mathlib

/-!
# Verification of the `metis` data-cleaning pipeline

Shallow embedding of `src/data_cleaning/cleaner.py` (`DataCleaner.clean`) and
`src/data_cleaning/config.py` (`DataCleaningConfig`), together with proofs of
the specification claims about them.

Modelling conventions:
* pandas cell values are the inductive type `Cell`: a raw string, a float
  (modelled as `ℚ`), a parsed datetime (`Cell.d`, payload an encoding of the
  timestamp as `ℚ`), or the missing marker (`NaN`/`NaT`/`<NA>`, modelled as
  `Cell.na`).  Floats are modelled by exact rationals.
* a `DataFrame` is an ordered list of column names plus an ordered list of
  rows, each row a list of cells aligned positionally with the columns.
* the pandas parsers used by `clean` (`pd.to_datetime`, `pd.to_numeric`,
  `pd.to_timedelta`, all with `errors="coerce"`) are modelled on the input
  shapes the pipeline consumes: ISO `YYYY-MM-DD` dates, signed decimal
  numerals, and `H:MM:SS(.frac)` clock durations.  Inputs outside these
  shapes coerce to the missing marker, exactly like `errors="coerce"`.
* `DataCleaner.clean` copies its argument and then applies both in-place
  column writes and rebinding operations; `cleanTracked` threads an explicit
  two-object heap (the caller's object and the working object, plus an
  aliasing flag) so that non-mutation of the caller's frame is a theorem
  about the code path, not an artifact of Lean's purity.
-/

namespace Metis

/-- A pandas cell value: string, numeric (float modelled as `ℚ`), datetime
(`d`, payload a `ℚ` encoding of the timestamp), or the missing marker. -/
inductive Cell where
  | s (v : String)
  | q (v : ℚ)
  | d (v : ℚ)
  | na
  deriving DecidableEq, Repr

/-- Missing marker test (`NaN`/`NaT`). -/
def isNa : Cell → Bool
  | .na => true
  | _ => false

/-- Apply a numeric function to a numeric cell; anything else propagates the
missing marker (pandas arithmetic on `NaN` yields `NaN`). -/
def cellMapQ (f : ℚ → ℚ) : Cell → Cell
  | .q v => .q (f v)
  | _ => .na

/-- `series <= bound` on one cell: `NaN` (and non-numeric) compares `False`,
as in pandas. -/
def cellLeQ (c : Cell) (b : ℚ) : Bool :=
  match c with
  | .q v => decide (v ≤ b)
  | _ => false

/-- `Series.between(lo, hi)` on one cell: inclusive on both ends, `False` on
`NaN` and non-numeric cells. -/
def cellBetween (c : Cell) (lo hi : ℚ) : Bool :=
  match c with
  | .q v => decide (lo ≤ v) && decide (v ≤ hi)
  | _ => false

/-! ## Parsers (models of the pandas coercions used by `clean`) -/

/-- Value of a digit string. -/
def digitsVal (cs : List Char) : ℕ :=
  cs.foldl (fun a c => a * 10 + (c.toNat - 48)) 0

/-- Nonempty all-digit character list. -/
def isDigits (cs : List Char) : Bool :=
  !cs.isEmpty && cs.all (·.isDigit)

/-- Strip leading and trailing whitespace from a character list (the
character-level effect of `str.strip`/pandas whitespace tolerance). -/
def trimChars (cs : List Char) : List Char :=
  ((cs.dropWhile Char.isWhitespace).reverse.dropWhile Char.isWhitespace).reverse

/-- Split a character list on a separator character, keeping empty pieces
(the character-level `str.split(sep)`). -/
def splitOnChar (sep : Char) : List Char → List (List Char)
  | [] => [[]]
  | c :: rest =>
      match splitOnChar sep rest with
      | [] => [[c]]
      | g :: gs => if c = sep then [] :: g :: gs else (c :: g) :: gs

/-- Parse a nonempty digit list. -/
def parseNatDigits (cs : List Char) : Option ℕ :=
  if isDigits cs then some (digitsVal cs) else none

/-- Parse an unsigned decimal numeral, with optional fractional part
(`"12"`, `"12.5"`, `"12."`, `".5"`). -/
def parseUnsignedQ (cs : List Char) : Option ℚ :=
  match splitOnChar '.' cs with
  | [w] => (parseNatDigits w).map (fun n => (n : ℚ))
  | [w, f] =>
      if (w.isEmpty || isDigits w) && (f.isEmpty || isDigits f) && !(w.isEmpty && f.isEmpty) then
        some ((digitsVal w : ℚ) + (digitsVal f : ℚ) / ((10 : ℚ) ^ f.length))
      else none
  | _ => none

/-- Model of `pd.to_numeric(..., errors="coerce")` on a string: a signed
decimal numeral, or failure. -/
def parseNumeric (s : String) : Option ℚ :=
  match trimChars s.toList with
  | '-' :: rest => (parseUnsignedQ rest).map (fun v => -v)
  | '+' :: rest => parseUnsignedQ rest
  | cs => parseUnsignedQ cs

/-- Gregorian leap-year test. -/
def isLeap (y : ℕ) : Bool :=
  (y % 4 == 0 && y % 100 != 0) || (y % 400 == 0)

/-- Days in a month of the proleptic Gregorian calendar. -/
def daysInMonth (y m : ℕ) : ℕ :=
  if m == 2 then (if isLeap y then 29 else 28)
  else if m == 4 || m == 6 || m == 9 || m == 11 then 30
  else 31

/-- Model of `pd.to_datetime(..., errors="coerce")` on a string: an ISO
`YYYY-MM-DD` calendar date, encoded injectively as `y*10000 + m*100 + d`. -/
def parseDate (s : String) : Option ℕ :=
  match splitOnChar '-' (trimChars s.toList) with
  | [ys, ms, ds] =>
      if isDigits ys && isDigits ms && isDigits ds then
        let y := digitsVal ys
        let m := digitsVal ms
        let d := digitsVal ds
        if 1 ≤ m ∧ m ≤ 12 ∧ 1 ≤ d ∧ d ≤ daysInMonth y m then
          some (y * 10000 + m * 100 + d)
        else none
      else none
  | _ => none

/-- Model of `pd.to_timedelta(..., errors="coerce")` on a string: an
`H:MM:SS(.frac)` clock duration, as total elapsed seconds. -/
def parseRuntime (s : String) : Option ℚ :=
  match splitOnChar ':' (trimChars s.toList) with
  | [hs, ms, ss] =>
      match parseNatDigits hs, parseNatDigits ms, parseUnsignedQ ss with
      | some h, some m, some sec => some ((h : ℚ) * 3600 + (m : ℚ) * 60 + sec)
      | _, _, _ => none
  | _ => none

/-! ## Cell-level coercions (Stage 3 of `clean`) -/

/-- `pd.to_datetime(column, errors="coerce")` on one cell.  Numeric input is
interpreted by pandas as an epoch offset and stays a valid timestamp;
existing timestamps pass through; unparseable strings and missing cells
become `NaT`. -/
def coerceDate : Cell → Cell
  | .s v => match parseDate v with
            | some n => .d (n : ℚ)
            | none => .na
  | .q v => .d v
  | .d v => .d v
  | .na => .na

/-- `pd.to_numeric(column, errors="coerce")` on one cell. -/
def coerceRpm : Cell → Cell
  | .s v => match parseNumeric v with
            | some q => .q q
            | none => .na
  | .q v => .q v
  | .d _ => .na
  | .na => .na

/-- `pd.to_timedelta(column.astype("string"), errors="coerce").dt.total_seconds()`
on one cell: only clock-formatted strings parse; the string rendering of a
bare number has no unit, so numeric cells coerce to missing, as do missing
cells and timestamps. -/
def coerceRuntime : Cell → Cell
  | .s v => match parseRuntime v with
            | some q => .q q
            | none => .na
  | _ => .na

/-! ## DataFrames -/

/-- One row: cells aligned positionally with the frame's column list. -/
abbrev Row := List Cell

/-- A pandas DataFrame: ordered column names and ordered rows. -/
structure DataFrame where
  cols : List String
  rows : List Row
  deriving DecidableEq, Repr

/-- Index of the first occurrence of a column name (the list's length if the
name is absent). -/
def colIdx (cols : List String) (c : String) : ℕ :=
  match cols with
  | [] => 0
  | c' :: rest => if c' = c then 0 else colIdx rest c + 1

/-- Cell of a row at a position; out-of-range reads give the missing marker. -/
def cellAt : Row → ℕ → Cell
  | [], _ => .na
  | c :: _, 0 => c
  | _ :: r, n + 1 => cellAt r n

/-- Write a cell of a row at a position (no-op out of range). -/
def setCell : Row → ℕ → Cell → Row
  | [], _, _ => []
  | _ :: r, 0, v => v :: r
  | c :: r, n + 1, v => c :: setCell r n v

/-- The cell of a row in a named column of a frame. -/
def DataFrame.cellOf (df : DataFrame) (c : String) (r : Row) : Cell :=
  cellAt r (colIdx df.cols c)

/-- `df.rename(columns=m)`: headers found in the map are replaced, all
others pass through; row data is untouched. -/
def renameCol (m : List (String × String)) (c : String) : String :=
  match m.lookup c with
  | some c' => c'
  | none => c

/-- `df.rename(columns=m)` (returns a new frame). -/
def DataFrame.rename (df : DataFrame) (m : List (String × String)) : DataFrame :=
  { df with cols := df.cols.map (renameCol m) }

/-- In-place column overwrite `df[c] = f(df[c])` for an existing column
(used by the Stage 3 coercions of the date and RPM columns). -/
def DataFrame.mapCol (df : DataFrame) (c : String) (f : Cell → Cell) : DataFrame :=
  { df with rows := df.rows.map (fun r => setCell r (colIdx df.cols c) (f (cellAt r (colIdx df.cols c)))) }

/-- In-place column assignment `df[c] = series` where the series is computed
row-wise from the current frame: overwrites `c` if it exists, otherwise
appends it as a new last column (pandas `__setitem__`). -/
def DataFrame.withCol (df : DataFrame) (c : String) (f : Row → Cell) : DataFrame :=
  if df.cols.contains c then
    { df with rows := df.rows.map (fun r => setCell r (colIdx df.cols c) (f r)) }
  else
    { cols := df.cols ++ [c], rows := df.rows.map (fun r => r ++ [f r]) }

/-! ## Configuration (`config.py`) -/

/-- The rename map installed by `DataCleaningConfig.__post_init__`. -/
def builtinRenameMap : List (String × String) :=
  [("Shift\nperiod", "Shift_period"), ("Run\ntime", "Run_time")]

/-- `DataCleaningConfig`, a frozen dataclass.  Field defaults are the
dataclass defaults; `rename_map` is declared `dict[str, str] | None`,
default `None`. -/
structure DataCleaningConfig where
  rpm_max : ℚ := 10000
  efficiency_min : ℚ := 75
  efficiency_max : ℚ := 100
  spindles_per_side : ℤ := 84
  shift_hours : ℚ := 8
  drop_multi_style_shifts : Bool := true
  col_date : String := "Date"
  col_shift : String := "Shift_period"
  col_machine : String := "Machine-number"
  col_style : String := "Style-description"
  col_runtime : String := "Run_time"
  col_rpm : String := "RPM"
  rename_map : Option (List (String × String)) := none
  deriving DecidableEq, Repr

/-- `__post_init__`: runs after dataclass field initialisation and replaces
`rename_map` (whatever the caller supplied, including `None`) with the two
built-in entries, via `object.__setattr__`. -/
def DataCleaningConfig.postInit (c : DataCleaningConfig) : DataCleaningConfig :=
  { c with rename_map := some builtinRenameMap }

/-- `DataCleaningConfig()` as actually constructed: defaults followed by
`__post_init__`. -/
def defaultConfig : DataCleaningConfig :=
  DataCleaningConfig.postInit {}

/-! ## The pipeline stages (`cleaner.py`, `DataCleaner.clean`) -/

/-- The set of required canonical columns of Stage 2, as a list (the Python
`set` literal; `dedup` models set semantics). -/
def requiredCols (cfg : DataCleaningConfig) : List String :=
  [cfg.col_date, cfg.col_shift, cfg.col_machine, cfg.col_style, cfg.col_runtime, cfg.col_rpm]

/-- `missing = required - set(df.columns)` (as an unordered set, here the
deduplicated sublist). -/
def missingColsRaw (cfg : DataCleaningConfig) (cols : List String) : List String :=
  (requiredCols cfg).dedup.filter (fun c => !(cols.contains c))

/-- Code-point lexicographic comparison of character lists (the order
Python's `sorted` uses on strings). -/
def charListLe : List Char → List Char → Bool
  | [], _ => true
  | _ :: _, [] => false
  | a :: as, b :: bs =>
      if a.toNat < b.toNat then true
      else if b.toNat < a.toNat then false
      else charListLe as bs

/-- Code-point lexicographic order on strings. -/
def strLe (a b : String) : Bool := charListLe a.toList b.toList

/-- `sorted(missing)`: the missing required columns in increasing
lexicographic order, as carried by the schema error. -/
def missingCols (cfg : DataCleaningConfig) (cols : List String) : List String :=
  (missingColsRaw cfg cols).insertionSort (fun a b => strLe a b = true)

/-- Stage 3: coerce the date and RPM columns in place, then assign the new
derived column `Run_time_seconds` from the runtime column. -/
def coerceStage (cfg : DataCleaningConfig) (df : DataFrame) : DataFrame :=
  let df1 := df.mapCol cfg.col_date coerceDate
  let df2 := df1.mapCol cfg.col_rpm coerceRpm
  df2.withCol "Run_time_seconds" (fun r => coerceRuntime (cellAt r (colIdx df2.cols cfg.col_runtime)))

/-- Stage 4: `df.dropna(subset=[col_date, col_rpm, "Run_time_seconds"])`. -/
def dropUnusable (cfg : DataCleaningConfig) (df : DataFrame) : DataFrame :=
  { df with rows := df.rows.filter (fun r =>
      !isNa (df.cellOf cfg.col_date r) && !isNa (df.cellOf cfg.col_rpm r)
        && !isNa (df.cellOf "Run_time_seconds" r)) }

/-- Stage 5: `df.loc[df[col_rpm] <= rpm_max].copy()`. -/
def filterRpm (cfg : DataCleaningConfig) (df : DataFrame) : DataFrame :=
  { df with rows := df.rows.filter (fun r => cellLeQ (df.cellOf cfg.col_rpm r) cfg.rpm_max) }

/-- The composite grouping key `(date, shift, machine)` of a row.  Missing
markers are ordinary key values (pandas `groupby(..., dropna=False)`). -/
def groupKey (cfg : DataCleaningConfig) (df : DataFrame) (r : Row) : Cell × Cell × Cell :=
  (df.cellOf cfg.col_date r, df.cellOf cfg.col_shift r, df.cellOf cfg.col_machine r)

/-- `groupby(keys, dropna=False)[col_style].nunique()` for one key: the
number of distinct non-missing style values among the rows with that key
(`Series.nunique` ignores `NaN`). -/
def styleNunique (cfg : DataCleaningConfig) (df : DataFrame) (k : Cell × Cell × Cell) : ℕ :=
  ((((df.rows.filter (fun r => decide (groupKey cfg df r = k))).map
      (fun r => df.cellOf cfg.col_style r)).filter (fun c => !isNa c)).dedup).length

/-- Stage 6 (optional): remove every row whose `(date, shift, machine)` group
carries more than one distinct style. -/
def dropMultiStyle (cfg : DataCleaningConfig) (df : DataFrame) : DataFrame :=
  if cfg.drop_multi_style_shifts then
    { df with rows := df.rows.filter (fun r =>
        decide (styleNunique cfg df (groupKey cfg df r) ≤ 1)) }
  else df

/-- Stage 7: the three derived-metric column assignments. -/
def addDerivedMetrics (cfg : DataCleaningConfig) (df : DataFrame) : DataFrame :=
  let total_shift_seconds : ℚ := cfg.shift_hours * 3600
  let spindles : ℚ := (cfg.spindles_per_side : ℚ)
  let df1 := df.withCol "Run_time_per_spindle_seconds"
      (fun r => cellMapQ (fun v => v / spindles) (df.cellOf "Run_time_seconds" r))
  let df2 := df1.withCol "Run_time_per_spindle_hours"
      (fun r => cellMapQ (fun v => v / 3600) (df1.cellOf "Run_time_per_spindle_seconds" r))
  df2.withCol "Machine_Efficiency"
      (fun r => cellMapQ (fun v => v / (total_shift_seconds * spindles) * 100) (df2.cellOf "Run_time_seconds" r))

/-- Stage 8: `df.loc[df["Machine_Efficiency"].between(efficiency_min, efficiency_max)].copy()`. -/
def filterEfficiency (cfg : DataCleaningConfig) (df : DataFrame) : DataFrame :=
  { df with rows := df.rows.filter (fun r =>
      cellBetween (df.cellOf "Machine_Efficiency" r) cfg.efficiency_min cfg.efficiency_max) }

/-! ## Named intermediate frames of the pipeline -/

/-- The frame after Stage 1 (rename; `config.rename_map or {}`). -/
def renamedFrame (cfg : DataCleaningConfig) (df : DataFrame) : DataFrame :=
  df.rename (cfg.rename_map.getD [])

/-- The frame after Stage 3. -/
def coercedFrame (cfg : DataCleaningConfig) (df : DataFrame) : DataFrame :=
  coerceStage cfg (renamedFrame cfg df)

/-- The frame after Stage 4. -/
def prunedFrame (cfg : DataCleaningConfig) (df : DataFrame) : DataFrame :=
  dropUnusable cfg (coercedFrame cfg df)

/-- The frame after Stage 5. -/
def rpmFilteredFrame (cfg : DataCleaningConfig) (df : DataFrame) : DataFrame :=
  filterRpm cfg (prunedFrame cfg df)

/-- The frame after Stage 6. -/
def styleFilteredFrame (cfg : DataCleaningConfig) (df : DataFrame) : DataFrame :=
  dropMultiStyle cfg (rpmFilteredFrame cfg df)

/-- The frame after Stage 7. -/
def metricsFrame (cfg : DataCleaningConfig) (df : DataFrame) : DataFrame :=
  addDerivedMetrics cfg (styleFilteredFrame cfg df)

/-- The final cleaned frame (after Stage 8). -/
def cleanedFrame (cfg : DataCleaningConfig) (df : DataFrame) : DataFrame :=
  filterEfficiency cfg (metricsFrame cfg df)

/-! ## `clean`, with explicit aliasing tracking -/

/-- The failure of Stage 2.  The spec's error taxonomy calls it
`SchemaError`; the source realises it as
`KeyError(f"Missing required columns: {sorted(missing)}")`, whose payload
identifies the sorted list of missing canonical column names. -/
inductive CleanError where
  | schemaError (missing : List String)
  deriving DecidableEq, Repr

/-- The two Python objects live during `clean`: the caller's frame
(`df_raw`) and the working frame (`df`), plus whether the two variables
alias the same heap object. -/
structure CleanHeap where
  raw : DataFrame
  cur : DataFrame
  sameObj : Bool
  deriving DecidableEq, Repr

/-- `df = <expression returning a fresh object>(df)` (e.g. `df.rename`,
`df.dropna`, `df.loc[...].copy()`): rebinding, never mutates either object. -/
def CleanHeap.assignNew (h : CleanHeap) (f : DataFrame → DataFrame) : CleanHeap :=
  { h with cur := f h.cur, sameObj := false }

/-- `df[...] = ...`: in-place mutation of the object `df` points to; if the
variables alias, the caller's object changes with it. -/
def CleanHeap.mutateInPlace (h : CleanHeap) (f : DataFrame → DataFrame) : CleanHeap :=
  { raw := if h.sameObj then f h.cur else h.raw, cur := f h.cur, sameObj := h.sameObj }

/-- `DataCleaner.clean`, statement by statement, returning the final heap:
the caller's object as it stands after the call, the result object, and
whether they alias. -/
def cleanTracked (cfg : DataCleaningConfig) (raw : DataFrame) : Except CleanError CleanHeap :=
  -- df = df_raw.copy()
  let h : CleanHeap := { raw := raw, cur := raw, sameObj := false }
  -- df = df.rename(columns=self.config.rename_map or {})
  let h := h.assignNew (fun d => d.rename (cfg.rename_map.getD []))
  -- required / missing / raise
  if (missingColsRaw cfg h.cur.cols).isEmpty then
    -- Stage 3: three in-place column assignments
    let h := h.mutateInPlace (coerceStage cfg)
    -- df = df.dropna(subset=[...])
    let h := h.assignNew (dropUnusable cfg)
    -- df = df.loc[df[col_rpm] <= rpm_max].copy()
    let h := h.assignNew (filterRpm cfg)
    -- optional Stage 6 rebinding
    let h := if cfg.drop_multi_style_shifts then h.assignNew (dropMultiStyle cfg) else h
    -- Stage 7: three in-place column assignments
    let h := h.mutateInPlace (addDerivedMetrics cfg)
    -- df = df.loc[df["Machine_Efficiency"].between(...)].copy()
    let h := h.assignNew (filterEfficiency cfg)
    .ok h
  else
    .error (.schemaError (missingCols cfg h.cur.cols))

/-- `DataCleaner.clean`: the value returned to the caller. -/
def clean (cfg : DataCleaningConfig) (df_raw : DataFrame) : Except CleanError DataFrame :=
  (cleanTracked cfg df_raw).map (fun h => h.cur)

/-- The four columns the pipeline derives, in the order it assigns them. -/
def derivedColNames : List String :=
  ["Run_time_seconds", "Run_time_per_spindle_seconds", "Run_time_per_spindle_hours", "Machine_Efficiency"]

/-! ## Row-level views of the map stages

`stage3Row` and `metricsRow` are the per-row effect of the Stage 3 and
Stage 7 column assignments, relative to the column list the frame had when
the stage ran.  They are used to state what `clean` does to single rows. -/

/-- Per-row effect of Stage 3 on a frame with columns `cols` (when
`"Run_time_seconds"` is not yet a column): coerce the date cell, then the
RPM cell, then append the runtime-in-seconds cell. -/
def stage3Row (cfg : DataCleaningConfig) (cols : List String) (r : Row) : Row :=
  let r1 := setCell r (colIdx cols cfg.col_date) (coerceDate (cellAt r (colIdx cols cfg.col_date)))
  let r2 := setCell r1 (colIdx cols cfg.col_rpm) (coerceRpm (cellAt r1 (colIdx cols cfg.col_rpm)))
  r2 ++ [coerceRuntime (cellAt r2 (colIdx cols cfg.col_runtime))]

/-- Per-row effect of Stage 7 on a frame with columns `cols` (when the three
metric names are not yet columns): append the three derived metric cells. -/
def metricsRow (cfg : DataCleaningConfig) (cols : List String) (r : Row) : Row :=
  let r1 := r ++ [cellMapQ (fun v => v / (cfg.spindles_per_side : ℚ))
      (cellAt r (colIdx cols "Run_time_seconds"))]
  let r2 := r1 ++ [cellMapQ (fun v => v / 3600)
      (cellAt r1 (colIdx (cols ++ ["Run_time_per_spindle_seconds"]) "Run_time_per_spindle_seconds"))]
  r2 ++ [cellMapQ (fun v => v / (cfg.shift_hours * 3600 * (cfg.spindles_per_side : ℚ)) * 100)
      (cellAt r2 (colIdx (cols ++ ["Run_time_per_spindle_seconds", "Run_time_per_spindle_hours"]) "Run_time_seconds"))]

/-- Survival predicate: a raw (renamed) row passes Stages 4, 5, 6 and 8 of
the pipeline on `df` under `cfg`.  The Stage 6 conjunct is relative to the
Stage 5 survivors, as in the source. -/
def keepRow (cfg : DataCleaningConfig) (df : DataFrame) (r : Row) : Bool :=
  let C := (renamedFrame cfg df).cols
  let c3 := C ++ ["Run_time_seconds"]
  let r3 := stage3Row cfg C r
  cellBetween
      (cellAt (metricsRow cfg c3 r3)
        (colIdx (c3 ++ ["Run_time_per_spindle_seconds", "Run_time_per_spindle_hours", "Machine_Efficiency"])
          "Machine_Efficiency"))
      cfg.efficiency_min cfg.efficiency_max
    && (((!cfg.drop_multi_style_shifts)
          || decide (styleNunique cfg (rpmFilteredFrame cfg df)
              (groupKey cfg (rpmFilteredFrame cfg df) r3) ≤ 1))
    && (cellLeQ (cellAt r3 (colIdx c3 cfg.col_rpm)) cfg.rpm_max
    && (!isNa (cellAt r3 (colIdx c3 cfg.col_date)) && !isNa (cellAt r3 (colIdx c3 cfg.col_rpm))
          && !isNa (cellAt r3 (colIdx c3 "Run_time_seconds")))))

/-- The output row `clean` produces from a surviving raw row. -/
def finalRow (cfg : DataCleaningConfig) (df : DataFrame) (r : Row) : Row :=
  metricsRow cfg ((renamedFrame cfg df).cols ++ ["Run_time_seconds"])
    (stage3Row cfg (renamedFrame cfg df).cols r)

/-! ## Concrete frames used to witness the theorems -/

/-- The canonical post-rename header list of the default configuration. -/
def sampleCols : List String :=
  ["Date", "Shift_period", "Machine-number", "Style-description", "Run_time", "RPM"]

/-- An empty frame carrying all required columns. -/
def emptyFrame : DataFrame := { cols := sampleCols, rows := [] }

/-- A raw frame whose shift and runtime headers carry embedded newlines. -/
def newlineHeaderFrame : DataFrame :=
  { cols := ["Date", "Shift\nperiod", "Machine-number", "Style-description", "Run\ntime", "RPM"],
    rows := [] }

/-- A frame whose first two rows share key and style, while the third row
shares the key with a different style (the spec's three-row example). -/
def multiStyleFrame : DataFrame :=
  { cols := sampleCols,
    rows := [
      [.d 20240101, .s "Day", .s "M1", .s "A", .q 21600, .q 5000],
      [.d 20240101, .s "Day", .s "M1", .s "A", .q 21600, .q 5000],
      [.d 20240101, .s "Day", .s "M1", .s "B", .q 21600, .q 5000]] }

/-- A one-column frame holding the runtime-seconds value of `"06:00:00"`. -/
def metricsWitnessFrame : DataFrame :=
  { cols := ["Run_time_seconds"], rows := [[Cell.q 21600]] }

/-- A raw frame whose second row has an unparseable date. -/
def malformedFrame : DataFrame :=
  { cols := sampleCols,
    rows := [
      [.s "2024-01-01", .s "Day", .s "M1", .s "Style A", .s "06:00:00", .s "5000"],
      [.s "invalid_date", .s "Night", .s "M1", .s "Style A", .s "07:00:00", .s "6000"]] }

/-! ## Helper lemmas: positional cell access -/

theorem cellAt_of_length_le : ∀ (r : Row) (i : ℕ), r.length ≤ i → cellAt r i = .na
  | [], _, _ => rfl
  | _ :: _, 0, h => by simp at h
  | _ :: r, n + 1, h => cellAt_of_length_le r n (by simpa using h)

theorem lt_length_of_cellAt_ne {r : Row} {i : ℕ} (h : cellAt r i ≠ .na) : i < r.length := by
  by_contra hlt
  exact h (cellAt_of_length_le r i (by omega))

theorem cellAt_append_left : ∀ (r r' : Row) (i : ℕ), i < r.length →
    cellAt (r ++ r') i = cellAt r i
  | _ :: _, _, 0, _ => rfl
  | _ :: r, r', n + 1, h => cellAt_append_left r r' n (by simpa using h)
  | [], _, i, h => by simp at h

theorem cellAt_append_len : ∀ (r : Row) (v : Cell) (r' : Row),
    cellAt (r ++ v :: r') r.length = v
  | [], _, _ => rfl
  | _ :: r, v, r' => cellAt_append_len r v r'

theorem setCell_length : ∀ (r : Row) (i : ℕ) (v : Cell), (setCell r i v).length = r.length
  | [], _, _ => rfl
  | _ :: _, 0, _ => rfl
  | _ :: r, n + 1, v => by simp [setCell, setCell_length r n v]

theorem cellAt_setCell_self : ∀ (r : Row) (i : ℕ) (v : Cell), i < r.length →
    cellAt (setCell r i v) i = v
  | _ :: _, 0, _, _ => rfl
  | _ :: r, n + 1, v, h => cellAt_setCell_self r n v (by simpa using h)
  | [], _, _, h => by simp at h

theorem cellAt_setCell_ne : ∀ (r : Row) (i j : ℕ) (v : Cell), i ≠ j →
    cellAt (setCell r i v) j = cellAt r j
  | [], _, _, _, _ => rfl
  | _ :: _, 0, 0, _, h => absurd rfl h
  | _ :: _, 0, _ + 1, _, _ => rfl
  | _ :: _, _ + 1, 0, _, _ => rfl
  | _ :: r, m + 1, n + 1, v, h => cellAt_setCell_ne r m n v (by omega)

/-! ## Helper lemmas: column lookup -/

theorem colIdx_append_of_mem {c : String} : ∀ {cols : List String} (cols' : List String),
    c ∈ cols → colIdx (cols ++ cols') c = colIdx cols c
  | [], _, h => by simp at h
  | c' :: rest, cols', h => by
      by_cases hc : c' = c
      · simp [colIdx, hc]
      · have : c ∈ rest := by
          rcases List.mem_cons.mp h with h1 | h1
          · exact absurd h1.symm hc
          · exact h1
        simp [colIdx, hc, colIdx_append_of_mem cols' this]

theorem colIdx_append_of_not_mem {c : String} : ∀ {cols : List String} (cols' : List String),
    c ∉ cols → colIdx (cols ++ cols') c = cols.length + colIdx cols' c
  | [], _, _ => by simp [colIdx]
  | c' :: rest, cols', h => by
      have hc : c' ≠ c := fun he => h (he ▸ List.mem_cons_self c' rest)
      have : c ∉ rest := fun hm => h (List.mem_cons_of_mem _ hm)
      simp [colIdx, hc, colIdx_append_of_not_mem cols' this]
      omega

theorem colIdx_lt_length_of_mem {c : String} : ∀ {cols : List String},
    c ∈ cols → colIdx cols c < cols.length
  | [], h => by simp at h
  | c' :: rest, h => by
      by_cases hc : c' = c
      · simp [colIdx, hc]
      · have : c ∈ rest := by
          rcases List.mem_cons.mp h with h1 | h1
          · exact absurd h1.symm hc
          · exact h1
        simpa [colIdx, hc] using colIdx_lt_length_of_mem this

theorem colIdx_eq_length_of_not_mem {c : String} : ∀ {cols : List String},
    c ∉ cols → colIdx cols c = cols.length
  | [], _ => rfl
  | c' :: rest, h => by
      have hc : c' ≠ c := fun he => h (he ▸ List.mem_cons_self c' rest)
      have : c ∉ rest := fun hm => h (List.mem_cons_of_mem _ hm)
      simp [colIdx, hc, colIdx_eq_length_of_not_mem this]

theorem colIdx_ne_of_mem_ne {c c' : String} : ∀ {cols : List String},
    c ∈ cols → c ≠ c' → colIdx cols c ≠ colIdx cols c'
  | [], h, _ => by simp at h
  | b :: rest, h, hne => by
      have hne' : ¬c' = c := fun he => hne he.symm
      by_cases hb : b = c
      · simp [colIdx, hb, hne]
      · have hmem : c ∈ rest := by
          rcases List.mem_cons.mp h with h1 | h1
          · exact absurd h1.symm hb
          · exact h1
        by_cases hb' : b = c'
        · simp [colIdx, hb, hb', hne']
        · have := colIdx_ne_of_mem_ne hmem hne
          simp [colIdx, hb, hb']
          omega

theorem contains_eq_false_iff {cols : List String} {c : String} :
    cols.contains c = false ↔ c ∉ cols := by
  constructor
  · intro h hm
    have : cols.contains c = true := List.elem_iff.mpr hm
    rw [h] at this
    exact Bool.false_ne_true this
  · intro h
    by_contra hne
    exact h (List.elem_iff.mp (Bool.of_not_eq_false hne))

/-! ## Helper lemmas: distinct-count characterisation -/

theorem dedup_length_le_one_iff {α : Type} [DecidableEq α] {l : List α} :
    l.dedup.length ≤ 1 ↔ ∀ a ∈ l, ∀ b ∈ l, a = b := by
  constructor
  · intro h a ha b hb
    have ha' : a ∈ l.dedup := List.mem_dedup.mpr ha
    have hb' : b ∈ l.dedup := List.mem_dedup.mpr hb
    match hd : l.dedup with
    | [] => rw [hd] at ha'; simp at ha'
    | [x] =>
        rw [hd] at ha' hb'
        simp at ha' hb'
        rw [ha', hb']
    | x :: y :: rest => rw [hd] at h; simp at h
  · intro h
    match hd : l.dedup with
    | [] => simp
    | [x] => simp
    | x :: y :: rest =>
        exfalso
        have hnd : (x :: y :: rest).Nodup := hd ▸ l.nodup_dedup
        have hx : x ∈ l := List.mem_dedup.mp (hd ▸ List.mem_cons_self x (y :: rest))
        have hy : y ∈ l := List.mem_dedup.mp
          (hd ▸ List.mem_cons_of_mem x (List.mem_cons_self y rest))
        have : x ≠ y := by
          intro he
          exact (List.nodup_cons.mp hnd).1 (he ▸ List.mem_cons_self y rest)
        exact this (h x hx y hy)

/-! ## Stage shape lemmas -/

theorem renamedFrame_rows (cfg : DataCleaningConfig) (df : DataFrame) :
    (renamedFrame cfg df).rows = df.rows := rfl

theorem coerceStage_cols (cfg : DataCleaningConfig) (df : DataFrame)
    (h : "Run_time_seconds" ∉ df.cols) :
    (coerceStage cfg df).cols = df.cols ++ ["Run_time_seconds"] := by
  simp [coerceStage, DataFrame.mapCol, DataFrame.withCol, h]

theorem coerceStage_rows (cfg : DataCleaningConfig) (df : DataFrame)
    (h : "Run_time_seconds" ∉ df.cols) :
    (coerceStage cfg df).rows = df.rows.map (stage3Row cfg df.cols) := by
  simp [coerceStage, DataFrame.mapCol, DataFrame.withCol, h, List.map_map, stage3Row]

theorem dropUnusable_cols (cfg : DataCleaningConfig) (df : DataFrame) :
    (dropUnusable cfg df).cols = df.cols := rfl

theorem dropUnusable_rows (cfg : DataCleaningConfig) (df : DataFrame) :
    (dropUnusable cfg df).rows = df.rows.filter (fun r =>
      !isNa (cellAt r (colIdx df.cols cfg.col_date)) && !isNa (cellAt r (colIdx df.cols cfg.col_rpm))
        && !isNa (cellAt r (colIdx df.cols "Run_time_seconds"))) := rfl

theorem filterRpm_cols (cfg : DataCleaningConfig) (df : DataFrame) :
    (filterRpm cfg df).cols = df.cols := rfl

theorem filterRpm_rows (cfg : DataCleaningConfig) (df : DataFrame) :
    (filterRpm cfg df).rows = df.rows.filter (fun r =>
      cellLeQ (cellAt r (colIdx df.cols cfg.col_rpm)) cfg.rpm_max) := rfl

theorem dropMultiStyle_cols (cfg : DataCleaningConfig) (df : DataFrame) :
    (dropMultiStyle cfg df).cols = df.cols := by
  unfold dropMultiStyle
  split <;> rfl

theorem dropMultiStyle_rows (cfg : DataCleaningConfig) (df : DataFrame) :
    (dropMultiStyle cfg df).rows =
      if cfg.drop_multi_style_shifts then
        df.rows.filter (fun r => decide (styleNunique cfg df (groupKey cfg df r) ≤ 1))
      else df.rows := by
  unfold dropMultiStyle
  split <;> simp_all

theorem addDerivedMetrics_cols (cfg : DataCleaningConfig) (df : DataFrame)
    (h1 : "Run_time_per_spindle_seconds" ∉ df.cols)
    (h2 : "Run_time_per_spindle_hours" ∉ df.cols)
    (h3 : "Machine_Efficiency" ∉ df.cols) :
    (addDerivedMetrics cfg df).cols =
      df.cols ++ ["Run_time_per_spindle_seconds", "Run_time_per_spindle_hours", "Machine_Efficiency"] := by
  simp [addDerivedMetrics, DataFrame.withCol, h1, h2, h3]

theorem addDerivedMetrics_rows (cfg : DataCleaningConfig) (df : DataFrame)
    (h1 : "Run_time_per_spindle_seconds" ∉ df.cols)
    (h2 : "Run_time_per_spindle_hours" ∉ df.cols)
    (h3 : "Machine_Efficiency" ∉ df.cols) :
    (addDerivedMetrics cfg df).rows = df.rows.map (metricsRow cfg df.cols) := by
  simp [addDerivedMetrics, DataFrame.withCol, DataFrame.cellOf, h1, h2, h3,
    List.map_map, metricsRow]

theorem filterEfficiency_rows (cfg : DataCleaningConfig) (df : DataFrame) :
    (filterEfficiency cfg df).rows = df.rows.filter (fun r =>
      cellBetween (cellAt r (colIdx df.cols "Machine_Efficiency")) cfg.efficiency_min cfg.efficiency_max) := rfl

/-! ## The shape of `cleanTracked` and `clean` -/

theorem cleanTracked_eq (cfg : DataCleaningConfig) (raw : DataFrame) :
    cleanTracked cfg raw =
      if (missingColsRaw cfg (renamedFrame cfg raw).cols).isEmpty then
        Except.ok ⟨raw, cleanedFrame cfg raw, false⟩
      else
        Except.error (CleanError.schemaError (missingCols cfg (renamedFrame cfg raw).cols)) := by
  unfold cleanTracked
  simp only [CleanHeap.assignNew, CleanHeap.mutateInPlace]
  cases hf : cfg.drop_multi_style_shifts with
  | false =>
      simp [renamedFrame, cleanedFrame, metricsFrame, styleFilteredFrame, rpmFilteredFrame,
        prunedFrame, coercedFrame, dropMultiStyle, hf]
  | true =>
      simp [renamedFrame, cleanedFrame, metricsFrame, styleFilteredFrame, rpmFilteredFrame,
        prunedFrame, coercedFrame, dropMultiStyle, hf]

theorem clean_eq (cfg : DataCleaningConfig) (df : DataFrame) :
    clean cfg df =
      if (missingColsRaw cfg (renamedFrame cfg df).cols).isEmpty then
        Except.ok (cleanedFrame cfg df)
      else
        Except.error (CleanError.schemaError (missingCols cfg (renamedFrame cfg df).cols)) := by
  rw [clean, cleanTracked_eq]
  split <;> rfl

theorem missingCols_eq_nil_iff (cfg : DataCleaningConfig) (cols : List String) :
    missingCols cfg cols = [] ↔ missingColsRaw cfg cols = [] := by
  unfold missingCols
  constructor
  · intro h
    have hp := List.perm_insertionSort (fun a b : String => strLe a b = true)
      (missingColsRaw cfg cols)
    rw [h] at hp
    exact (List.Perm.nil_eq hp).symm
  · intro h
    rw [h]
    rfl

theorem clean_ok_iff (cfg : DataCleaningConfig) (df : DataFrame) (out : DataFrame) :
    clean cfg df = Except.ok out ↔
      (missingColsRaw cfg (renamedFrame cfg df).cols = [] ∧ out = cleanedFrame cfg df) := by
  rw [clean_eq]
  cases hE : (missingColsRaw cfg (renamedFrame cfg df).cols).isEmpty with
  | true =>
      have h := List.isEmpty_iff.mp hE
      simp [h, eq_comm]
  | false =>
      have h : missingColsRaw cfg (renamedFrame cfg df).cols ≠ [] := by
        intro hh
        simp [hh] at hE
      simp [h]

theorem mem_missingCols (cfg : DataCleaningConfig) (cols : List String) (c : String) :
    c ∈ missingCols cfg cols ↔ (c ∈ requiredCols cfg ∧ c ∉ cols) := by
  unfold missingCols missingColsRaw
  rw [List.mem_insertionSort, List.mem_filter, List.mem_dedup]
  constructor
  · rintro ⟨hm, hc⟩
    exact ⟨hm, by simpa using hc⟩
  · rintro ⟨hm, hc⟩
    exact ⟨hm, by simpa using hc⟩

theorem charListLe_total : ∀ as bs : List Char, charListLe as bs = true ∨ charListLe bs as = true
  | [], _ => Or.inl rfl
  | _ :: _, [] => Or.inr rfl
  | a :: as, b :: bs => by
      by_cases h1 : a.toNat < b.toNat
      · left
        simp [charListLe, h1]
      · by_cases h2 : b.toNat < a.toNat
        · right
          simp [charListLe, h2]
        · rcases charListLe_total as bs with h | h <;>
            simp [charListLe, h1, h2, h]

theorem charListLe_trans : ∀ as bs cs : List Char,
    charListLe as bs = true → charListLe bs cs = true → charListLe as cs = true
  | [], _, _, _, _ => rfl
  | _ :: _, [], _, hab, _ => by simp [charListLe] at hab
  | _ :: _, _ :: _, [], _, hbc => by simp [charListLe] at hbc
  | a :: as, b :: bs, c :: cs, hab, hbc => by
      simp only [charListLe] at hab hbc ⊢
      by_cases h1 : a.toNat < b.toNat <;> by_cases h2 : b.toNat < c.toNat
      · simp [show a.toNat < c.toNat by omega]
      · by_cases h3 : c.toNat < b.toNat
        · simp [h2, h3] at hbc
        · have hbc' : b.toNat = c.toNat := by omega
          simp [show a.toNat < c.toNat by omega]
      · by_cases h3 : b.toNat < a.toNat
        · simp [h1, h3] at hab
        · have hab' : a.toNat = b.toNat := by omega
          simp [show a.toNat < c.toNat by omega]
      · by_cases h3 : b.toNat < a.toNat
        · simp [h1, h3] at hab
        · by_cases h4 : c.toNat < b.toNat
          · simp [h2, h4] at hbc
          · have hab' : a.toNat = b.toNat := by omega
            have hbc' : b.toNat = c.toNat := by omega
            simp only [h1, h3, if_false, if_neg] at hab
            simp only [h2, h4, if_false, if_neg] at hbc
            have := charListLe_trans as bs cs (by simpa [h1, h3] using hab) (by simpa [h2, h4] using hbc)
            simp [show ¬(a.toNat < c.toNat) by omega, show ¬(c.toNat < a.toNat) by omega, this]

instance : IsTotal String (fun a b => strLe a b = true) :=
  ⟨fun a b => charListLe_total a.toList b.toList⟩

instance : IsTrans String (fun a b => strLe a b = true) :=
  ⟨fun a b c => charListLe_trans a.toList b.toList c.toList⟩

theorem missingCols_sorted (cfg : DataCleaningConfig) (cols : List String) :
    List.Sorted (fun a b => strLe a b = true) (missingCols cfg cols) :=
  List.sorted_insertionSort (fun a b : String => strLe a b = true) (missingColsRaw cfg cols)

/-! ## Characterisation of the cleaned frame -/

theorem styleFilteredFrame_cols (cfg : DataCleaningConfig) (df : DataFrame)
    (h1 : "Run_time_seconds" ∉ (renamedFrame cfg df).cols) :
    (styleFilteredFrame cfg df).cols = (renamedFrame cfg df).cols ++ ["Run_time_seconds"] := by
  unfold styleFilteredFrame rpmFilteredFrame prunedFrame coercedFrame
  rw [dropMultiStyle_cols, filterRpm_cols, dropUnusable_cols, coerceStage_cols _ _ h1]

theorem cleaned_cols_eq (cfg : DataCleaningConfig) (df : DataFrame)
    (hf : ∀ c ∈ derivedColNames, c ∉ (renamedFrame cfg df).cols) :
    (cleanedFrame cfg df).cols = (renamedFrame cfg df).cols ++ derivedColNames := by
  have h1 : "Run_time_seconds" ∉ (renamedFrame cfg df).cols := hf _ (by simp [derivedColNames])
  have h2 : "Run_time_per_spindle_seconds" ∉ (renamedFrame cfg df).cols :=
    hf _ (by simp [derivedColNames])
  have h3 : "Run_time_per_spindle_hours" ∉ (renamedFrame cfg df).cols :=
    hf _ (by simp [derivedColNames])
  have h4 : "Machine_Efficiency" ∉ (renamedFrame cfg df).cols := hf _ (by simp [derivedColNames])
  have hsf := styleFilteredFrame_cols cfg df h1
  have h2' : "Run_time_per_spindle_seconds" ∉ (styleFilteredFrame cfg df).cols := by
    rw [hsf]; simp [h2]
  have h3' : "Run_time_per_spindle_hours" ∉ (styleFilteredFrame cfg df).cols := by
    rw [hsf]; simp [h3]
  have h4' : "Machine_Efficiency" ∉ (styleFilteredFrame cfg df).cols := by
    rw [hsf]; simp [h4]
  unfold cleanedFrame metricsFrame
  rw [show (filterEfficiency cfg (addDerivedMetrics cfg (styleFilteredFrame cfg df))).cols
      = (addDerivedMetrics cfg (styleFilteredFrame cfg df)).cols from rfl,
    addDerivedMetrics_cols _ _ h2' h3' h4', hsf]
  simp [derivedColNames]

theorem metricsFrame_cols (cfg : DataCleaningConfig) (df : DataFrame)
    (hf : ∀ c ∈ derivedColNames, c ∉ (renamedFrame cfg df).cols) :
    (metricsFrame cfg df).cols =
      ((renamedFrame cfg df).cols ++ ["Run_time_seconds"])
        ++ ["Run_time_per_spindle_seconds", "Run_time_per_spindle_hours", "Machine_Efficiency"] := by
  have h1 : "Run_time_seconds" ∉ (renamedFrame cfg df).cols := hf _ (by simp [derivedColNames])
  have hsf := styleFilteredFrame_cols cfg df h1
  have h2' : "Run_time_per_spindle_seconds" ∉ (styleFilteredFrame cfg df).cols := by
    rw [hsf]; simpa using hf _ (by simp [derivedColNames])
  have h3' : "Run_time_per_spindle_hours" ∉ (styleFilteredFrame cfg df).cols := by
    rw [hsf]; simpa using hf _ (by simp [derivedColNames])
  have h4' : "Machine_Efficiency" ∉ (styleFilteredFrame cfg df).cols := by
    rw [hsf]; simpa using hf _ (by simp [derivedColNames])
  unfold metricsFrame
  rw [addDerivedMetrics_cols _ _ h2' h3' h4', hsf]

theorem cleaned_rows_eq (cfg : DataCleaningConfig) (df : DataFrame)
    (hf : ∀ c ∈ derivedColNames, c ∉ (renamedFrame cfg df).cols) :
    (cleanedFrame cfg df).rows = (df.rows.filter (keepRow cfg df)).map (finalRow cfg df) := by
  have h1 : "Run_time_seconds" ∉ (renamedFrame cfg df).cols := hf _ (by simp [derivedColNames])
  have hsf := styleFilteredFrame_cols cfg df h1
  have h2' : "Run_time_per_spindle_seconds" ∉ (styleFilteredFrame cfg df).cols := by
    rw [hsf]; simpa using hf _ (by simp [derivedColNames])
  have h3' : "Run_time_per_spindle_hours" ∉ (styleFilteredFrame cfg df).cols := by
    rw [hsf]; simpa using hf _ (by simp [derivedColNames])
  have h4' : "Machine_Efficiency" ∉ (styleFilteredFrame cfg df).cols := by
    rw [hsf]; simpa using hf _ (by simp [derivedColNames])
  have hmCols := metricsFrame_cols cfg df hf
  have hmRows : (metricsFrame cfg df).rows =
      (styleFilteredFrame cfg df).rows.map
        (metricsRow cfg ((renamedFrame cfg df).cols ++ ["Run_time_seconds"])) := by
    unfold metricsFrame
    rw [addDerivedMetrics_rows _ _ h2' h3' h4', hsf]
  have hc3 : (coercedFrame cfg df).cols = (renamedFrame cfg df).cols ++ ["Run_time_seconds"] :=
    coerceStage_cols _ _ h1
  have hr3 : (coercedFrame cfg df).rows =
      df.rows.map (stage3Row cfg (renamedFrame cfg df).cols) := by
    unfold coercedFrame
    rw [coerceStage_rows _ _ h1, renamedFrame_rows]
  have hpRows : (prunedFrame cfg df).rows =
      (df.rows.map (stage3Row cfg (renamedFrame cfg df).cols)).filter (fun r =>
        !isNa (cellAt r (colIdx ((renamedFrame cfg df).cols ++ ["Run_time_seconds"]) cfg.col_date))
          && !isNa (cellAt r (colIdx ((renamedFrame cfg df).cols ++ ["Run_time_seconds"]) cfg.col_rpm))
          && !isNa (cellAt r (colIdx ((renamedFrame cfg df).cols ++ ["Run_time_seconds"]) "Run_time_seconds"))) := by
    unfold prunedFrame
    rw [dropUnusable_rows, hc3, hr3]
  have hrfRows : (rpmFilteredFrame cfg df).rows =
      (prunedFrame cfg df).rows.filter (fun r =>
        cellLeQ (cellAt r (colIdx ((renamedFrame cfg df).cols ++ ["Run_time_seconds"]) cfg.col_rpm))
          cfg.rpm_max) := by
    unfold rpmFilteredFrame
    rw [filterRpm_rows]
    rw [show (prunedFrame cfg df).cols = (coercedFrame cfg df).cols from rfl, hc3]
  have hsfRows := dropMultiStyle_rows cfg (rpmFilteredFrame cfg df)
  unfold cleanedFrame
  rw [filterEfficiency_rows, hmCols, hmRows]
  rw [show (styleFilteredFrame cfg df).rows = (dropMultiStyle cfg (rpmFilteredFrame cfg df)).rows from rfl,
    hsfRows, hrfRows, hpRows]
  cases hflag : cfg.drop_multi_style_shifts with
  | true =>
      simp only [hflag, if_true]
      simp only [List.filter_map, List.map_map, List.filter_filter]
      show _ = List.map (finalRow cfg df) (List.filter (fun r => keepRow cfg df r) df.rows)
      simp only [keepRow, hflag, Bool.not_true, Bool.false_or, Function.comp_def]
      rfl
  | false =>
      simp only [hflag, Bool.false_eq_true, if_false]
      simp only [List.filter_map, List.map_map, List.filter_filter]
      show _ = List.map (finalRow cfg df) (List.filter (fun r => keepRow cfg df r) df.rows)
      simp only [keepRow, hflag, Bool.not_false, Bool.true_or, Bool.true_and,
        Function.comp_def]
      rfl

/-! ## The claims -/

/-- **C1.** `clean` fails if and only if at least one required canonical
column is absent after applying the rename map; the failure is the schema
error carrying the sorted list of the missing column names (no later stage
runs and no partial output exists, since the error excludes any `ok`
result); the carried list is sorted and holds exactly the required columns
absent from the renamed header list. -/
theorem clean_schema_gate (cfg : DataCleaningConfig) (df : DataFrame) :
    (∀ e : CleanError, clean cfg df = Except.error e ↔
        (missingCols cfg (renamedFrame cfg df).cols ≠ [] ∧
          e = CleanError.schemaError (missingCols cfg (renamedFrame cfg df).cols))) ∧
    List.Sorted (fun a b : String => strLe a b = true) (missingCols cfg (renamedFrame cfg df).cols) ∧
    (∀ c : String, c ∈ missingCols cfg (renamedFrame cfg df).cols ↔
        (c ∈ requiredCols cfg ∧ c ∉ (renamedFrame cfg df).cols)) := by
  refine ⟨?_, missingCols_sorted cfg _, fun c => mem_missingCols cfg _ c⟩
  intro e
  rw [clean_eq]
  cases hE : (missingColsRaw cfg (renamedFrame cfg df).cols).isEmpty with
  | true =>
      have h := List.isEmpty_iff.mp hE
      have h2 : missingCols cfg (renamedFrame cfg df).cols = [] :=
        (missingCols_eq_nil_iff _ _).mpr h
      simp [h2]
  | false =>
      have h : missingColsRaw cfg (renamedFrame cfg df).cols ≠ [] := by
        intro hh
        simp [hh] at hE
      have h2 : missingCols cfg (renamedFrame cfg df).cols ≠ [] :=
        fun hh => h ((missingCols_eq_nil_iff _ _).mp hh)
      simp [h2, eq_comm]

/-- Witness for `clean_schema_gate` at a concrete frame missing four of the
six required columns. -/
theorem clean_schema_gate_witness :
    clean defaultConfig { cols := ["Date", "Shift_period"], rows := [] } =
      Except.error (CleanError.schemaError
        ["Machine-number", "RPM", "Run_time", "Style-description"]) := by
  have h := (clean_schema_gate defaultConfig { cols := ["Date", "Shift_period"], rows := [] }).1
    (CleanError.schemaError (missingCols defaultConfig
      (renamedFrame defaultConfig { cols := ["Date", "Shift_period"], rows := [] }).cols))
  have h2 := h.mpr ⟨by decide, rfl⟩
  rw [h2]
  rfl

/-- **C2.** `clean` leaves the caller's frame structurally unchanged — the
heap object passed in is identical before and after the call — and the
returned frame is a distinct object (never an alias of the input), whose
value is what `clean` hands back to the caller. -/
theorem clean_does_not_mutate (cfg : DataCleaningConfig) (raw : DataFrame) (h : CleanHeap)
    (hok : cleanTracked cfg raw = Except.ok h) :
    h.raw = raw ∧ h.sameObj = false ∧ clean cfg raw = Except.ok h.cur := by
  rw [cleanTracked_eq] at hok
  by_cases hE : (missingColsRaw cfg (renamedFrame cfg raw).cols).isEmpty = true
  · rw [if_pos hE] at hok
    cases hok
    exact ⟨rfl, rfl, by rw [clean, cleanTracked_eq, if_pos hE]; rfl⟩
  · rw [if_neg hE] at hok
    cases hok

/-- Witness for `clean_does_not_mutate`: one full run on a concrete frame. -/
theorem clean_does_not_mutate_witness :
    ∃ h : CleanHeap, cleanTracked defaultConfig emptyFrame = Except.ok h ∧
      h.raw = emptyFrame ∧ h.sameObj = false := by
  obtain ⟨h, hok⟩ : ∃ h, cleanTracked defaultConfig emptyFrame = Except.ok h := ⟨_, rfl⟩
  obtain ⟨h1, h2, -⟩ := clean_does_not_mutate defaultConfig emptyFrame h hok
  exact ⟨h, hok, h1, h2⟩

/-- **C5.** Whatever `rename_map` the caller passes to the constructor
(including none), the constructed configuration's rename map contains the
two built-in newline-header entries; consequently a table whose raw headers
include the two newline-bearing names together with the other required
columns passes schema validation under the default configuration. -/
theorem config_rename_coverage :
    (∀ c : DataCleaningConfig,
        ("Shift\nperiod", "Shift_period") ∈ c.postInit.rename_map.getD [] ∧
        ("Run\ntime", "Run_time") ∈ c.postInit.rename_map.getD []) ∧
    missingCols defaultConfig (renamedFrame defaultConfig newlineHeaderFrame).cols = [] ∧
    (clean defaultConfig newlineHeaderFrame).toOption.isSome = true := by
  refine ⟨fun c => ⟨?_, ?_⟩, by decide, rfl⟩ <;>
    simp [DataCleaningConfig.postInit, builtinRenameMap]

/-- **C6.** `__post_init__` unconditionally replaces any caller-supplied
`rename_map`: the constructed configuration's map equals exactly the two
built-in entries, so caller-supplied entries are never present and the
rename stage of `clean` only ever applies the built-in map. -/
theorem config_rename_map_replaced :
    (∀ c : DataCleaningConfig, c.postInit.rename_map = some builtinRenameMap) ∧
    (∀ c : DataCleaningConfig, ∀ df : DataFrame,
        df.rename (c.postInit.rename_map.getD []) = df.rename builtinRenameMap) :=
  ⟨fun _ => rfl, fun _ _ => rfl⟩

/-- **C8.** A row is retained by the RPM outlier filter iff its coerced RPM
value is at most `rpm_max`; in particular a row with RPM exactly `rpm_max`
is retained and a row with RPM one unit above is dropped. -/
theorem filterRpm_inclusive_boundary (cfg : DataCleaningConfig) (df : DataFrame) (r : Row) (v : ℚ)
    (hcell : cellAt r (colIdx df.cols cfg.col_rpm) = Cell.q v) :
    (r ∈ (filterRpm cfg df).rows ↔ (r ∈ df.rows ∧ v ≤ cfg.rpm_max)) ∧
    (v = cfg.rpm_max → (r ∈ (filterRpm cfg df).rows ↔ r ∈ df.rows)) ∧
    (v = cfg.rpm_max + 1 → r ∉ (filterRpm cfg df).rows) := by
  have hmain : r ∈ (filterRpm cfg df).rows ↔ (r ∈ df.rows ∧ v ≤ cfg.rpm_max) := by
    rw [filterRpm_rows, List.mem_filter]
    simp [hcell, cellLeQ]
  refine ⟨hmain, ?_, ?_⟩
  · intro hv
    rw [hmain, hv]
    simp
  · intro hv
    rw [hmain, hv]
    rintro ⟨-, hle⟩
    linarith

/-- Witness for `filterRpm_inclusive_boundary`: under the default
configuration, a row at RPM 10000 is retained and a row at 10001 dropped. -/
theorem filterRpm_inclusive_boundary_witness :
    ([Cell.q 10000] ∈ (filterRpm defaultConfig { cols := ["RPM"], rows := [[Cell.q 10000], [Cell.q 10001]] }).rows)
      ∧ ([Cell.q 10001] ∉ (filterRpm defaultConfig { cols := ["RPM"], rows := [[Cell.q 10000], [Cell.q 10001]] }).rows) := by
  constructor
  · exact ((filterRpm_inclusive_boundary defaultConfig
      { cols := ["RPM"], rows := [[Cell.q 10000], [Cell.q 10001]] } [Cell.q 10000] 10000 rfl).2.1
        rfl).mpr (by simp)
  · exact (filterRpm_inclusive_boundary defaultConfig
      { cols := ["RPM"], rows := [[Cell.q 10000], [Cell.q 10001]] } [Cell.q 10001] 10001 rfl).2.2
        (by norm_num [defaultConfig, DataCleaningConfig.postInit])

/-- **C9.** A row is retained by the final efficiency filter iff
`efficiency_min ≤ Machine_Efficiency ≤ efficiency_max`, both boundaries
inclusive: under a coherent range, a row exactly at either boundary is
retained. -/
theorem filterEfficiency_inclusive_boundary (cfg : DataCleaningConfig) (df : DataFrame)
    (r : Row) (v : ℚ)
    (hcell : cellAt r (colIdx df.cols "Machine_Efficiency") = Cell.q v) :
    (r ∈ (filterEfficiency cfg df).rows ↔
      (r ∈ df.rows ∧ cfg.efficiency_min ≤ v ∧ v ≤ cfg.efficiency_max)) ∧
    (cfg.efficiency_min ≤ cfg.efficiency_max →
      (v = cfg.efficiency_min → (r ∈ (filterEfficiency cfg df).rows ↔ r ∈ df.rows)) ∧
      (v = cfg.efficiency_max → (r ∈ (filterEfficiency cfg df).rows ↔ r ∈ df.rows))) := by
  have hmain : r ∈ (filterEfficiency cfg df).rows ↔
      (r ∈ df.rows ∧ cfg.efficiency_min ≤ v ∧ v ≤ cfg.efficiency_max) := by
    rw [filterEfficiency_rows, List.mem_filter]
    simp [hcell, cellBetween, and_assoc]
  refine ⟨hmain, fun hrange => ⟨?_, ?_⟩⟩
  · intro hv
    rw [hmain, hv]
    simp [hrange]
  · intro hv
    rw [hmain, hv]
    simp [hrange]

/-- Witness for `filterEfficiency_inclusive_boundary`: rows exactly at the
default boundaries 75 and 100 are retained. -/
theorem filterEfficiency_inclusive_boundary_witness :
    ([Cell.q 75] ∈ (filterEfficiency defaultConfig
        { cols := ["Machine_Efficiency"], rows := [[Cell.q 75], [Cell.q 100]] }).rows) ∧
    ([Cell.q 100] ∈ (filterEfficiency defaultConfig
        { cols := ["Machine_Efficiency"], rows := [[Cell.q 75], [Cell.q 100]] }).rows) := by
  constructor
  · exact (((filterEfficiency_inclusive_boundary defaultConfig
      { cols := ["Machine_Efficiency"], rows := [[Cell.q 75], [Cell.q 100]] } [Cell.q 75] 75 rfl).2
        (by norm_num [defaultConfig, DataCleaningConfig.postInit])).1 rfl).mpr (by simp)
  · exact (((filterEfficiency_inclusive_boundary defaultConfig
      { cols := ["Machine_Efficiency"], rows := [[Cell.q 75], [Cell.q 100]] } [Cell.q 100] 100 rfl).2
        (by norm_num [defaultConfig, DataCleaningConfig.postInit])).2 rfl).mpr (by simp)

/-- The key characterisation of `nunique`: a group's distinct non-missing
style count is at most one iff any two of its rows with non-missing styles
agree on the style. -/
theorem styleNunique_le_one_iff (cfg : DataCleaningConfig) (df : DataFrame)
    (k : Cell × Cell × Cell) :
    styleNunique cfg df k ≤ 1 ↔
      ∀ r1 ∈ df.rows, ∀ r2 ∈ df.rows,
        groupKey cfg df r1 = k → groupKey cfg df r2 = k →
        isNa (df.cellOf cfg.col_style r1) = false →
        isNa (df.cellOf cfg.col_style r2) = false →
        df.cellOf cfg.col_style r1 = df.cellOf cfg.col_style r2 := by
  unfold styleNunique
  rw [dedup_length_le_one_iff]
  constructor
  · intro h r1 h1 r2 h2 hk1 hk2 hna1 hna2
    refine h _ ?_ _ ?_
    · rw [List.mem_filter]
      exact ⟨List.mem_map.mpr ⟨r1, List.mem_filter.mpr ⟨h1, by simp [hk1]⟩, rfl⟩, by simp [hna1]⟩
    · rw [List.mem_filter]
      exact ⟨List.mem_map.mpr ⟨r2, List.mem_filter.mpr ⟨h2, by simp [hk2]⟩, rfl⟩, by simp [hna2]⟩
  · intro h a ha b hb
    rw [List.mem_filter] at ha hb
    obtain ⟨ha1, ha2⟩ := ha
    obtain ⟨hb1, hb2⟩ := hb
    obtain ⟨r1, hr1, rfl⟩ := List.mem_map.mp ha1
    obtain ⟨r2, hr2, rfl⟩ := List.mem_map.mp hb1
    rw [List.mem_filter] at hr1 hr2
    exact h r1 hr1.1 r2 hr2.1 (by simpa using hr1.2) (by simpa using hr2.2)
      (by simpa using ha2) (by simpa using hb2)

/-- **C3.** When `drop_multi_style_shifts` is true, a row survives the
multi-style stage iff every pair of rows sharing its composite
`(date, shift, machine)` key (missing markers compare as ordinary key
values) and carrying non-missing styles agree on the style — i.e. its group
holds at most one distinct style; rows of a group with two distinct styles
are all removed.  When the flag is false, the stage removes nothing. -/
theorem dropMultiStyle_spec (cfg : DataCleaningConfig) (df : DataFrame) :
    (cfg.drop_multi_style_shifts = false → dropMultiStyle cfg df = df) ∧
    (cfg.drop_multi_style_shifts = true → ∀ r : Row,
      (r ∈ (dropMultiStyle cfg df).rows ↔
        (r ∈ df.rows ∧ ∀ r1 ∈ df.rows, ∀ r2 ∈ df.rows,
          groupKey cfg df r1 = groupKey cfg df r →
          groupKey cfg df r2 = groupKey cfg df r →
          isNa (df.cellOf cfg.col_style r1) = false →
          isNa (df.cellOf cfg.col_style r2) = false →
          df.cellOf cfg.col_style r1 = df.cellOf cfg.col_style r2))) := by
  constructor
  · intro h
    unfold dropMultiStyle
    simp [h]
  · intro h r
    rw [dropMultiStyle_rows, if_pos h, List.mem_filter]
    simp only [decide_eq_true_eq]
    rw [styleNunique_le_one_iff]

/-- Witness for `dropMultiStyle_spec`: in the three-row mixed group the
style-"A" row is removed when the flag is on, and nothing is removed when
the flag is off. -/
theorem dropMultiStyle_spec_witness :
    ([Cell.d 20240101, Cell.s "Day", Cell.s "M1", Cell.s "A", Cell.q 21600, Cell.q 5000]
        ∉ (dropMultiStyle defaultConfig multiStyleFrame).rows) ∧
    dropMultiStyle (DataCleaningConfig.postInit { drop_multi_style_shifts := false })
        multiStyleFrame = multiStyleFrame := by
  constructor
  · intro hmem
    have h := ((dropMultiStyle_spec defaultConfig multiStyleFrame).2 rfl
      [Cell.d 20240101, Cell.s "Day", Cell.s "M1", Cell.s "A", Cell.q 21600, Cell.q 5000]).mp hmem
    have hcontra := h.2
      [Cell.d 20240101, Cell.s "Day", Cell.s "M1", Cell.s "A", Cell.q 21600, Cell.q 5000] (by decide)
      [Cell.d 20240101, Cell.s "Day", Cell.s "M1", Cell.s "B", Cell.q 21600, Cell.q 5000] (by decide)
      (by decide) (by decide) (by decide) (by decide)
    exact absurd hcontra (by decide)
  · exact (dropMultiStyle_spec
      (DataCleaningConfig.postInit { drop_multi_style_shifts := false }) multiStyleFrame).1 rfl

/-- **C4.** Stage 7 extends every surviving row with
`Run_time_per_spindle_seconds = Run_time_seconds / spindles_per_side`,
`Run_time_per_spindle_hours = Run_time_per_spindle_seconds / 3600` and
`Machine_Efficiency = Run_time_seconds / (shift_hours * 3600 * spindles_per_side) * 100`;
and the runtime text `"06:00:00"` coerces to `Run_time_seconds = 21600`. -/
theorem derived_metrics_formulas (cfg : DataCleaningConfig) (df : DataFrame) (r : Row) (v : ℚ)
    (h1 : "Run_time_per_spindle_seconds" ∉ df.cols)
    (h2 : "Run_time_per_spindle_hours" ∉ df.cols)
    (h3 : "Machine_Efficiency" ∉ df.cols)
    (hlen : r.length = df.cols.length)
    (hmem : r ∈ df.rows)
    (hv : cellAt r (colIdx df.cols "Run_time_seconds") = Cell.q v) :
    (r ++ [Cell.q (v / (cfg.spindles_per_side : ℚ)),
        Cell.q (v / (cfg.spindles_per_side : ℚ) / 3600),
        Cell.q (v / (cfg.shift_hours * 3600 * (cfg.spindles_per_side : ℚ)) * 100)])
      ∈ (addDerivedMetrics cfg df).rows ∧
    coerceRuntime (Cell.s "06:00:00") = Cell.q 21600 := by
  refine ⟨?_, ?_⟩
  case refine_2 =>
    have hpr : coerceRuntime (Cell.s "06:00:00")
        = Cell.q (((6 : ℕ) : ℚ) * 3600 + ((0 : ℕ) : ℚ) * 60 + ((0 : ℕ) : ℚ)) := rfl
    rw [hpr]
    norm_num
  rw [addDerivedMetrics_rows cfg df h1 h2 h3]
  refine List.mem_map.mpr ⟨r, hmem, ?_⟩
  have hrts_mem : "Run_time_seconds" ∈ df.cols := by
    by_contra hnot
    rw [colIdx_eq_length_of_not_mem hnot, ← hlen, cellAt_of_length_le r r.length le_rfl] at hv
    exact Cell.noConfusion hv
  have hi : colIdx df.cols "Run_time_seconds" < r.length := by
    rw [hlen]
    exact colIdx_lt_length_of_mem hrts_mem
  simp only [metricsRow]
  rw [colIdx_append_of_not_mem _ h1,
    show colIdx ["Run_time_per_spindle_seconds"] "Run_time_per_spindle_seconds" = 0 from by
      simp [colIdx],
    Nat.add_zero, ← hlen,
    colIdx_append_of_mem _ hrts_mem, hv]
  simp only [cellMapQ]
  rw [cellAt_append_len r _ [],
    cellAt_append_left _ _ _ (by simp; omega),
    cellAt_append_left _ _ _ hi, hv]
  simp [cellMapQ]

/-- Witness for `derived_metrics_formulas`: the spec's concrete example with
`spindles_per_side = 84` and `shift_hours = 8`. -/
theorem derived_metrics_formulas_witness :
    ([Cell.q 21600, Cell.q (21600 / 84), Cell.q (21600 / 84 / 3600),
        Cell.q (21600 / (8 * 3600 * 84) * 100)]
      ∈ (addDerivedMetrics defaultConfig metricsWitnessFrame).rows) ∧
    coerceRuntime (Cell.s "06:00:00") = Cell.q 21600 := by
  have h := derived_metrics_formulas defaultConfig metricsWitnessFrame [Cell.q 21600] 21600
    (by decide) (by decide) (by decide) rfl (by simp [metricsWitnessFrame]) rfl
  constructor
  · have h1 := h.1
    norm_num [defaultConfig, DataCleaningConfig.postInit] at h1 ⊢
    exact h1
  · exact h.2

/-! ## Helper lemmas for the coercion and output-shape claims -/

theorem required_mem_of_schema (cfg : DataCleaningConfig) (cols : List String)
    (h : missingColsRaw cfg cols = []) : ∀ c ∈ requiredCols cfg, c ∈ cols := by
  intro c hc
  by_contra hnc
  have hm : c ∈ missingColsRaw cfg cols := by
    unfold missingColsRaw
    rw [List.mem_filter, List.mem_dedup]
    exact ⟨hc, by simpa using hnc⟩
  rw [h] at hm
  simp at hm

theorem coerceRpm_coerceDate (c : Cell) : coerceRpm (coerceDate c) = Cell.na := by
  cases c with
  | s v =>
      cases hp : parseDate v <;> simp [coerceDate, coerceRpm, hp]
  | q v => rfl
  | d v => rfl
  | na => rfl

theorem coerceRuntime_coerceDate (c : Cell) : coerceRuntime (coerceDate c) = Cell.na := by
  cases c with
  | s v =>
      cases hp : parseDate v <;> simp [coerceDate, coerceRuntime, hp]
  | q v => rfl
  | d v => rfl
  | na => rfl

theorem coerceRuntime_coerceRpm (c : Cell) : coerceRuntime (coerceRpm c) = Cell.na := by
  cases c with
  | s v =>
      cases hp : parseNumeric v <;> simp [coerceRpm, coerceRuntime, hp]
  | q v => rfl
  | d v => rfl
  | na => rfl

theorem stage3Row_length (cfg : DataCleaningConfig) (cols : List String) (r : Row) :
    (stage3Row cfg cols r).length = r.length + 1 := by
  simp [stage3Row, setCell_length]

theorem ne_na_of_isNa_eq_false {c : Cell} (h : isNa c = false) : c ≠ Cell.na := by
  intro he
  rw [he] at h
  simp [isNa] at h

theorem cellAt_metricsRow_of_lt (cfg : DataCleaningConfig) (cols : List String) (r : Row)
    (i : ℕ) (hi : i < r.length) : cellAt (metricsRow cfg cols r) i = cellAt r i := by
  simp only [metricsRow]
  rw [cellAt_append_left _ _ _ (by simp; omega), cellAt_append_left _ _ _ (by simp; omega),
    cellAt_append_left _ _ _ hi]

/-- The date cell of a Stage 3 row whose raw date text failed to parse is
the missing marker. -/
theorem stage3Row_date_na (cfg : DataCleaningConfig) (cols : List String) (r : Row) (s : String)
    (hcell : cellAt r (colIdx cols cfg.col_date) = Cell.s s) (hfail : parseDate s = none) :
    cellAt (stage3Row cfg cols r) (colIdx cols cfg.col_date) = Cell.na := by
  have hlt : colIdx cols cfg.col_date < r.length :=
    lt_length_of_cellAt_ne (by rw [hcell]; exact fun h => Cell.noConfusion h)
  simp only [stage3Row]
  rw [cellAt_append_left _ _ _ (by rw [setCell_length, setCell_length]; exact hlt)]
  by_cases he : colIdx cols cfg.col_rpm = colIdx cols cfg.col_date
  · rw [he, cellAt_setCell_self _ _ _ (by rw [setCell_length]; exact hlt),
      cellAt_setCell_self _ _ _ hlt, hcell]
    simp [coerceDate, hfail, coerceRpm]
  · rw [cellAt_setCell_ne _ _ _ _ he, cellAt_setCell_self _ _ _ hlt, hcell]
    simp [coerceDate, hfail]

/-- The RPM cell of a Stage 3 row whose raw RPM text failed to parse is the
missing marker. -/
theorem stage3Row_rpm_na (cfg : DataCleaningConfig) (cols : List String) (r : Row) (s : String)
    (hcell : cellAt r (colIdx cols cfg.col_rpm) = Cell.s s) (hfail : parseNumeric s = none) :
    cellAt (stage3Row cfg cols r) (colIdx cols cfg.col_rpm) = Cell.na := by
  have hlt : colIdx cols cfg.col_rpm < r.length :=
    lt_length_of_cellAt_ne (by rw [hcell]; exact fun h => Cell.noConfusion h)
  simp only [stage3Row]
  rw [cellAt_append_left _ _ _ (by rw [setCell_length, setCell_length]; exact hlt),
    cellAt_setCell_self _ _ _ (by rw [setCell_length]; exact hlt)]
  by_cases he : colIdx cols cfg.col_date = colIdx cols cfg.col_rpm
  · rw [he, cellAt_setCell_self _ _ _ hlt, hcell]
    cases hp : parseDate s <;> simp [coerceDate, coerceRpm, hp]
  · rw [cellAt_setCell_ne _ _ _ _ he, hcell]
    simp [coerceRpm, hfail]

/-- The appended runtime-seconds cell of a Stage 3 row whose raw runtime
text failed to parse is the missing marker. -/
theorem stage3Row_runtime_na (cfg : DataCleaningConfig) (cols : List String) (r : Row) (s : String)
    (hlen : r.length = cols.length)
    (hcell : cellAt r (colIdx cols cfg.col_runtime) = Cell.s s) (hfail : parseRuntime s = none) :
    cellAt (stage3Row cfg cols r) cols.length = Cell.na := by
  simp only [stage3Row]
  have hlen2 : (setCell (setCell r (colIdx cols cfg.col_date)
      (coerceDate (cellAt r (colIdx cols cfg.col_date)))) (colIdx cols cfg.col_rpm)
      (coerceRpm (cellAt (setCell r (colIdx cols cfg.col_date)
        (coerceDate (cellAt r (colIdx cols cfg.col_date)))) (colIdx cols cfg.col_rpm)))).length
      = cols.length := by
    rw [setCell_length, setCell_length, hlen]
  rw [← hlen2, cellAt_append_len]
  by_cases h1 : colIdx cols cfg.col_rpm = colIdx cols cfg.col_runtime
  · rw [← h1]
    have hlt : colIdx cols cfg.col_rpm < (setCell r (colIdx cols cfg.col_date)
        (coerceDate (cellAt r (colIdx cols cfg.col_date)))).length := by
      rw [setCell_length, h1]
      exact lt_length_of_cellAt_ne (by rw [hcell]; exact fun h => Cell.noConfusion h)
    rw [cellAt_setCell_self _ _ _ hlt, coerceRuntime_coerceRpm]
  · rw [cellAt_setCell_ne _ _ _ _ h1]
    by_cases h2 : colIdx cols cfg.col_date = colIdx cols cfg.col_runtime
    · have hlt : colIdx cols cfg.col_date < r.length := by
        rw [h2]
        exact lt_length_of_cellAt_ne (by rw [hcell]; exact fun h => Cell.noConfusion h)
      rw [← h2, cellAt_setCell_self _ _ _ hlt, coerceRuntime_coerceDate]
    · rw [cellAt_setCell_ne _ _ _ _ h2, hcell]
      simp [coerceRuntime, hfail]

/-- **C7.** Type coercion never fails: a string cell coerces to the missing
marker exactly when the corresponding parser fails (the missing marker, not
an error, is the only possible outcome of unparseable input).  A rectangular
(renamed) row whose date, RPM or runtime text is unparseable is absent from
the frame surviving Stage 4; a coerced row whose date, RPM and
runtime-seconds cells are all present survives Stage 4 and proceeds to the
later stages; and every row of `clean`'s output carries non-missing date,
RPM and runtime-seconds cells. -/
theorem coercion_never_fails_and_drops (cfg : DataCleaningConfig) (df : DataFrame) :
    (∀ s : String, coerceDate (Cell.s s) = Cell.na ↔ parseDate s = none) ∧
    (∀ s : String, coerceRpm (Cell.s s) = Cell.na ↔ parseNumeric s = none) ∧
    (∀ s : String, coerceRuntime (Cell.s s) = Cell.na ↔ parseRuntime s = none) ∧
    (∀ r ∈ df.rows, r.length = df.cols.length →
      missingColsRaw cfg (renamedFrame cfg df).cols = [] →
      "Run_time_seconds" ∉ (renamedFrame cfg df).cols →
      ((∃ s, cellAt r (colIdx (renamedFrame cfg df).cols cfg.col_date) = Cell.s s
          ∧ parseDate s = none) ∨
       (∃ s, cellAt r (colIdx (renamedFrame cfg df).cols cfg.col_rpm) = Cell.s s
          ∧ parseNumeric s = none) ∨
       (∃ s, cellAt r (colIdx (renamedFrame cfg df).cols cfg.col_runtime) = Cell.s s
          ∧ parseRuntime s = none)) →
      stage3Row cfg (renamedFrame cfg df).cols r ∉ (prunedFrame cfg df).rows) ∧
    (∀ r ∈ (coercedFrame cfg df).rows,
      isNa (cellAt r (colIdx (coercedFrame cfg df).cols cfg.col_date)) = false →
      isNa (cellAt r (colIdx (coercedFrame cfg df).cols cfg.col_rpm)) = false →
      isNa (cellAt r (colIdx (coercedFrame cfg df).cols "Run_time_seconds")) = false →
      r ∈ (prunedFrame cfg df).rows) ∧
    ((∀ c ∈ derivedColNames, c ∉ (renamedFrame cfg df).cols) →
      ∀ out, clean cfg df = Except.ok out → ∀ r ∈ out.rows,
        isNa (cellAt r (colIdx out.cols cfg.col_date)) = false ∧
        isNa (cellAt r (colIdx out.cols cfg.col_rpm)) = false ∧
        isNa (cellAt r (colIdx out.cols "Run_time_seconds")) = false) := by
  refine ⟨?_, ?_, ?_, ?_, ?_, ?_⟩
  · intro s
    cases hp : parseDate s <;> simp [coerceDate, hp]
  · intro s
    cases hp : parseNumeric s <;> simp [coerceRpm, hp]
  · intro s
    cases hp : parseRuntime s <;> simp [coerceRuntime, hp]
  · -- malformed rows are dropped by Stage 4
    intro r hr hlen hschema hfresh1 hbad hmem
    have hreq := required_mem_of_schema cfg (renamedFrame cfg df).cols hschema
    have hp4 : (!isNa (cellAt (stage3Row cfg (renamedFrame cfg df).cols r)
          (colIdx (coercedFrame cfg df).cols cfg.col_date))
        && !isNa (cellAt (stage3Row cfg (renamedFrame cfg df).cols r)
          (colIdx (coercedFrame cfg df).cols cfg.col_rpm))
        && !isNa (cellAt (stage3Row cfg (renamedFrame cfg df).cols r)
          (colIdx (coercedFrame cfg df).cols "Run_time_seconds"))) = true := by
      have := List.mem_filter.mp (by
        rw [show (prunedFrame cfg df).rows
            = (dropUnusable cfg (coercedFrame cfg df)).rows from rfl, dropUnusable_rows] at hmem
        exact hmem)
      exact this.2
    have hcc : (coercedFrame cfg df).cols = (renamedFrame cfg df).cols ++ ["Run_time_seconds"] :=
      coerceStage_cols cfg (renamedFrame cfg df) hfresh1
    rw [hcc] at hp4
    rw [colIdx_append_of_mem _ (hreq _ (by simp [requiredCols])),
      colIdx_append_of_mem _ (hreq _ (by simp [requiredCols])),
      colIdx_append_of_not_mem _ hfresh1,
      show colIdx ["Run_time_seconds"] "Run_time_seconds" = 0 from by simp [colIdx],
      Nat.add_zero] at hp4
    simp only [Bool.and_eq_true, Bool.not_eq_true'] at hp4
    have hlenC : r.length = (renamedFrame cfg df).cols.length := by
      rw [hlen]
      simp [renamedFrame, DataFrame.rename]
    rcases hbad with ⟨s, hcell, hfail⟩ | ⟨s, hcell, hfail⟩ | ⟨s, hcell, hfail⟩
    · rw [stage3Row_date_na cfg _ r s hcell hfail] at hp4
      simp [isNa] at hp4
    · rw [stage3Row_rpm_na cfg _ r s hcell hfail] at hp4
      simp [isNa] at hp4
    · rw [stage3Row_runtime_na cfg _ r s hlenC hcell hfail] at hp4
      simp [isNa] at hp4
  · -- fully-parsed rows survive Stage 4
    intro r hr hd hrp hrt
    rw [show (prunedFrame cfg df).rows
        = (dropUnusable cfg (coercedFrame cfg df)).rows from rfl, dropUnusable_rows,
      List.mem_filter]
    exact ⟨hr, by simp [DataFrame.cellOf, hd, hrp, hrt]⟩
  · -- rows of clean's output have all three cells present
    intro hfresh out hok r hr
    obtain ⟨hschema, rfl⟩ := (clean_ok_iff cfg df out).mp hok
    have hreq := required_mem_of_schema cfg (renamedFrame cfg df).cols hschema
    have hfresh1 : "Run_time_seconds" ∉ (renamedFrame cfg df).cols :=
      hfresh _ (by simp [derivedColNames])
    rw [cleaned_rows_eq cfg df hfresh] at hr
    obtain ⟨r0, hr0, rfl⟩ := List.mem_map.mp hr
    have hkeep := (List.mem_filter.mp hr0).2
    simp only [keepRow, Bool.and_eq_true, Bool.not_eq_true'] at hkeep
    obtain ⟨-, -, -, ⟨hd, hrp⟩, hrt⟩ := hkeep
    rw [colIdx_append_of_mem _ (hreq _ (by simp [requiredCols]))] at hd
    rw [colIdx_append_of_mem _ (hreq _ (by simp [requiredCols]))] at hrp
    rw [colIdx_append_of_not_mem _ hfresh1,
      show colIdx ["Run_time_seconds"] "Run_time_seconds" = 0 from by simp [colIdx],
      Nat.add_zero] at hrt
    rw [cleaned_cols_eq cfg df hfresh]
    rw [colIdx_append_of_mem _ (hreq _ (by simp [requiredCols])),
      colIdx_append_of_mem _ (hreq _ (by simp [requiredCols])),
      colIdx_append_of_not_mem _ hfresh1,
      show colIdx derivedColNames "Run_time_seconds" = 0 from by simp [derivedColNames, colIdx],
      Nat.add_zero]
    have hdlt := lt_length_of_cellAt_ne (ne_na_of_isNa_eq_false hd)
    have hrplt := lt_length_of_cellAt_ne (ne_na_of_isNa_eq_false hrp)
    have hrtlt := lt_length_of_cellAt_ne (ne_na_of_isNa_eq_false hrt)
    refine ⟨?_, ?_, ?_⟩
    · simp only [finalRow]
      rw [cellAt_metricsRow_of_lt _ _ _ _ hdlt]
      exact hd
    · simp only [finalRow]
      rw [cellAt_metricsRow_of_lt _ _ _ _ hrplt]
      exact hrp
    · simp only [finalRow]
      rw [cellAt_metricsRow_of_lt _ _ _ _ hrtlt]
      exact hrt

/-- Witness for `coercion_never_fails_and_drops`: the row with date text
`"invalid_date"` is absent from the Stage 4 survivors. -/
theorem coercion_never_fails_and_drops_witness :
    stage3Row defaultConfig (renamedFrame defaultConfig malformedFrame).cols
        [Cell.s "invalid_date", Cell.s "Night", Cell.s "M1", Cell.s "Style A",
          Cell.s "07:00:00", Cell.s "6000"]
      ∉ (prunedFrame defaultConfig malformedFrame).rows :=
  (coercion_never_fails_and_drops defaultConfig malformedFrame).2.2.2.1
    [Cell.s "invalid_date", Cell.s "Night", Cell.s "M1", Cell.s "Style A",
      Cell.s "07:00:00", Cell.s "6000"]
    (by decide) (by decide) (by decide) (by decide)
    (Or.inl ⟨"invalid_date", rfl, rfl⟩)

/-- **C10.** For every table passing schema validation (and not already
carrying the derived column names), the output's columns are exactly the
renamed input columns followed by the four added columns, and the output's
rows are exactly the transforms of the input rows that survive all the
filtering stages, in the input's relative order (`List.filter` preserves
order and `List.map` transforms in place). -/
theorem clean_output_characterization (cfg : DataCleaningConfig) (df out : DataFrame)
    (hok : clean cfg df = Except.ok out)
    (hfresh : ∀ c ∈ derivedColNames, c ∉ (renamedFrame cfg df).cols) :
    out.cols = (renamedFrame cfg df).cols ++ derivedColNames ∧
    out.rows = (df.rows.filter (keepRow cfg df)).map (finalRow cfg df) := by
  obtain ⟨-, rfl⟩ := (clean_ok_iff cfg df out).mp hok
  exact ⟨cleaned_cols_eq cfg df hfresh, cleaned_rows_eq cfg df hfresh⟩

/-- Witness for `clean_output_characterization` at a concrete table. -/
theorem clean_output_characterization_witness :
    ∃ out, clean defaultConfig emptyFrame = Except.ok out ∧
      out.cols = (renamedFrame defaultConfig emptyFrame).cols ++ derivedColNames ∧
      out.rows = (emptyFrame.rows.filter (keepRow defaultConfig emptyFrame)).map
        (finalRow defaultConfig emptyFrame) := by
  obtain ⟨out, hok⟩ : ∃ out, clean defaultConfig emptyFrame = Except.ok out := ⟨_, rfl⟩
  exact ⟨out, hok, clean_output_characterization defaultConfig emptyFrame out hok (by decide)⟩

end Metis
